import Mathlib

/-!
# Verification of the Aircrash dashboard core (MyPythonProject.py)

Shallow embedding of the data-loading/normalization and filter/aggregation
logic of `MyPythonProject.py`. Dataframe cells that can hold NaN are
modelled as `Option` values; numeric cells are rationals; the presence or
absence of a whole source column is a `Cols` flag. Pandas operations used
by the source (`fillna`, `unique`, `isin`, `value_counts`, `groupby`,
`sort_values`, `head`, `sum`, `mean`) are modelled on Lean lists.
-/

namespace Aircrash

/-- The result of parsing one `Date` cell with `pd.to_datetime(..., errors="coerce")`:
a parseable cell yields a year and a month name, an unparseable or missing
cell yields `none` (NaT). -/
structure DateVal where
  year : Int
  monthName : String
deriving Repr, DecidableEq

/-- One raw CSV row. Every cell that can be NaN is an `Option`. -/
structure RawRecord where
  country : Option String
  opr : Option String
  aircraft : Option String
  location : Option String
  airRaw : Option ℚ
  groundRaw : Option ℚ
  aboard : Option ℚ
  date : Option DateVal
deriving Repr, DecidableEq

/-- Which optional source columns exist in the CSV
(`"Fatalities (air)"`, `"Ground"`, `"Date"`). -/
structure Cols where
  hasAir : Bool
  hasGround : Bool
  hasDate : Bool
deriving Repr, DecidableEq

/-- One row after `load_data` ran: categorical NaNs filled with
`"Unspecified"`, `Air`/`Ground` columns materialized (zero column when the
source column was absent), `Fatalities = Air.fillna(0) + Ground.fillna(0)`,
`Year`/`Month` derived from `Date` when that column exists. -/
structure Record where
  country : String
  opr : String
  aircraft : String
  location : String
  air : Option ℚ
  ground : Option ℚ
  fatalities : ℚ
  aboard : Option ℚ
  year : Option Int
  month : Option String
deriving Repr, DecidableEq

/-- Normalization of one row, following `load_data` line by line:
`fillna("Unspecified")` on the four categorical columns; the `Air` column is
the source air-fatalities column when present and an all-zero column
otherwise; likewise `Ground`; `Fatalities` is the NaN-filled sum; `Year` and
`Month` exist only when a `Date` column exists and are NaN (`none`) on
unparseable dates. -/
def loadRecord (c : Cols) (r : RawRecord) : Record :=
  { country := r.country.getD "Unspecified"
    opr := r.opr.getD "Unspecified"
    aircraft := r.aircraft.getD "Unspecified"
    location := r.location.getD "Unspecified"
    air := if c.hasAir then r.airRaw else some 0
    ground := if c.hasGround then r.groundRaw else some 0
    fatalities := (if c.hasAir then r.airRaw else some 0).getD 0
      + (if c.hasGround then r.groundRaw else some 0).getD 0
    aboard := r.aboard
    year := if c.hasDate then r.date.map (·.year) else none
    month := if c.hasDate then r.date.map (·.monthName) else none }

/-- The normalized dataframe: its rows plus the fact of whether the derived
`Year`/`Month` columns exist (they do iff the source had a `Date` column). -/
structure Dataset where
  hasDate : Bool
  rows : List Record
deriving Repr, DecidableEq

/-- `load_data` over a whole CSV. -/
def loadData (c : Cols) (raws : List RawRecord) : Dataset :=
  { hasDate := c.hasDate, rows := raws.map (loadRecord c) }

/-- Model of pandas `Series.unique()`: distinct values in order of first
appearance. (Mathlib's `dedup` keeps last occurrences, so dedup the
reversed list and reverse back.) -/
def pdUnique {α : Type} [DecidableEq α] (l : List α) : List α :=
  l.reverse.dedup.reverse

theorem mem_pdUnique {α : Type} [DecidableEq α] {l : List α} {x : α} :
    x ∈ pdUnique l ↔ x ∈ l := by
  simp [pdUnique]

theorem nodup_pdUnique {α : Type} [DecidableEq α] (l : List α) :
    (pdUnique l).Nodup :=
  List.nodup_reverse.mpr (List.nodup_dedup l.reverse)

/-- The position of the first occurrence of `x` in a list (the length of
the list when `x` is absent), used to state that an option list is in
first-appearance order. -/
def firstIdx {α : Type} [DecidableEq α] (x : α) : List α → ℕ
  | [] => 0
  | a :: as => if a = x then 0 else firstIdx x as + 1

theorem firstIdx_append_of_mem {α : Type} [DecidableEq α] {x : α} {l t : List α}
    (h : x ∈ l) : firstIdx x (l ++ t) = firstIdx x l := by
  induction l with
  | nil => cases h
  | cons a as ih =>
    rw [List.cons_append, firstIdx, firstIdx]
    by_cases hax : a = x
    · rw [if_pos hax, if_pos hax]
    · rw [if_neg hax, if_neg hax]
      rcases List.mem_cons.mp h with hxa | hxa
      · exact absurd hxa.symm hax
      · rw [ih hxa]

theorem firstIdx_append_of_not_mem {α : Type} [DecidableEq α] {x : α}
    {l t : List α} (h : x ∉ l) :
    firstIdx x (l ++ t) = l.length + firstIdx x t := by
  induction l with
  | nil => rw [List.nil_append, List.length_nil, Nat.zero_add]
  | cons a as ih =>
    have hax : a ≠ x := fun hc => h (hc ▸ List.mem_cons_self a as)
    rw [List.cons_append, firstIdx, if_neg hax,
      ih (fun hc => h (List.mem_cons_of_mem a hc)), List.length_cons]
    omega

theorem firstIdx_lt_length {α : Type} [DecidableEq α] {x : α} {l : List α}
    (h : x ∈ l) : firstIdx x l < l.length := by
  induction l with
  | nil => cases h
  | cons a as ih =>
    rw [firstIdx, List.length_cons]
    by_cases hax : a = x
    · rw [if_pos hax]
      exact Nat.succ_pos _
    · rw [if_neg hax]
      rcases List.mem_cons.mp h with hxa | hxa
      · exact absurd hxa.symm hax
      · exact Nat.succ_lt_succ (ih hxa)

theorem pdUnique_append_singleton {α : Type} [DecidableEq α] (l : List α) (x : α) :
    pdUnique (l ++ [x]) = if x ∈ l then pdUnique l else pdUnique l ++ [x] := by
  by_cases hx : x ∈ l
  · rw [if_pos hx]
    simp only [pdUnique, List.reverse_append, List.reverse_cons, List.reverse_nil,
      List.nil_append, List.singleton_append]
    rw [List.dedup_cons_of_mem (List.mem_reverse.mpr hx)]
  · rw [if_neg hx]
    simp only [pdUnique, List.reverse_append, List.reverse_cons, List.reverse_nil,
      List.nil_append, List.singleton_append]
    rw [List.dedup_cons_of_not_mem (fun hc => hx (List.mem_reverse.mp hc)),
      List.reverse_cons]

/-- `pdUnique` lists values in strictly increasing position of first
occurrence: exactly pandas `unique()`'s first-appearance order. -/
theorem pairwise_firstIdx_pdUnique {α : Type} [DecidableEq α] (l : List α) :
    (pdUnique l).Pairwise (fun x y => firstIdx x l < firstIdx y l) := by
  induction l using List.reverseRecOn with
  | nil => simp [pdUnique]
  | append_singleton l x ih =>
    rw [pdUnique_append_singleton]
    by_cases hx : x ∈ l
    · rw [if_pos hx]
      refine List.Pairwise.imp_of_mem ?_ ih
      intro a b ha hb hab
      rw [firstIdx_append_of_mem (mem_pdUnique.mp ha),
        firstIdx_append_of_mem (mem_pdUnique.mp hb)]
      exact hab
    · rw [if_neg hx, List.pairwise_append]
      refine ⟨List.Pairwise.imp_of_mem ?_ ih, by simp, ?_⟩
      · intro a b ha hb hab
        rw [firstIdx_append_of_mem (mem_pdUnique.mp ha),
          firstIdx_append_of_mem (mem_pdUnique.mp hb)]
        exact hab
      · intro a ha b hb
        rw [List.mem_singleton] at hb
        subst hb
        rw [firstIdx_append_of_mem (mem_pdUnique.mp ha),
          firstIdx_append_of_not_mem hx]
        have hlt := firstIdx_lt_length (mem_pdUnique.mp ha)
        omega

/-- The user's multiselect state: one list of selected values per filter
dimension, in the order the source's `filters` dict lists them. An empty
list means "no restriction". -/
structure Selection where
  countries : List String
  aircrafts : List String
  operators : List String
  years : List Int
deriving Repr, DecidableEq

/-- The `Year isin` test of the filter loop: a record whose `Year` cell is
NaN is never a member of the selected set. -/
def yearMatch (ys : List Int) (r : Record) : Bool :=
  match r.year with
  | some y => ys.contains y
  | none => false

/-- The filter loop of the source (lines 56-59): start from `df.copy()`,
then for each dimension in dict order keep only rows whose value `isin` the
selection, skipping dimensions with an empty selection. Accessing the
`Year` column when the dataframe has none raises a `KeyError` (caught by
the page-level banner): modelled as `none`. -/
def applyFiltersRows (hasDate : Bool) (rows : List Record) (s : Selection) :
    Option (List Record) :=
  let r1 := if s.countries.isEmpty then rows
    else rows.filter (fun r => s.countries.contains r.country)
  let r2 := if s.aircrafts.isEmpty then r1
    else r1.filter (fun r => s.aircrafts.contains r.aircraft)
  let r3 := if s.operators.isEmpty then r2
    else r2.filter (fun r => s.operators.contains r.opr)
  if s.years.isEmpty then some r3
  else if hasDate then some (r3.filter (yearMatch s.years)) else none

/-- Filtering a dataset with the current selection. -/
def Dataset.applyFilters (d : Dataset) (s : Selection) : Option (List Record) :=
  applyFiltersRows d.hasDate d.rows s

/-- Insert an element into a list in front of the first element it compares
below, used to model a deterministic comparison sort. -/
def insertSorted {α : Type} (le : α → α → Bool) (a : α) : List α → List α
  | [] => [a]
  | b :: bs => if le a b then a :: b :: bs else b :: insertSorted le a bs

/-- Comparison sort on lists, modelling the pandas sorting primitives
(`sort_values`, the key ordering of `groupby(sort=True)`, and the
count ordering of `value_counts`). -/
def sortByRel {α : Type} (le : α → α → Bool) : List α → List α
  | [] => []
  | a :: as => insertSorted le a (sortByRel le as)

theorem perm_insertSorted {α : Type} (le : α → α → Bool) (a : α) (l : List α) :
    List.Perm (insertSorted le a l) (a :: l) := by
  induction l with
  | nil => exact List.Perm.refl _
  | cons b bs ih =>
    rw [insertSorted]
    by_cases hab : le a b = true
    · rw [if_pos hab]
    · rw [if_neg hab]
      exact (ih.cons b).trans (List.Perm.swap a b bs)

theorem perm_sortByRel {α : Type} (le : α → α → Bool) (l : List α) :
    List.Perm (sortByRel le l) l := by
  induction l with
  | nil => exact List.Perm.refl _
  | cons a as ih =>
    exact (perm_insertSorted le a (sortByRel le as)).trans (ih.cons a)

theorem mem_sortByRel {α : Type} {le : α → α → Bool} {l : List α} {x : α} :
    x ∈ sortByRel le l ↔ x ∈ l :=
  (perm_sortByRel le l).mem_iff

theorem length_sortByRel {α : Type} (le : α → α → Bool) (l : List α) :
    (sortByRel le l).length = l.length :=
  (perm_sortByRel le l).length_eq

theorem mem_insertSorted {α : Type} {le : α → α → Bool} {a x : α} {l : List α} :
    x ∈ insertSorted le a l ↔ x = a ∨ x ∈ l := by
  rw [(perm_insertSorted le a l).mem_iff]
  simp

theorem pairwise_insertSorted {α : Type} {le : α → α → Bool}
    (total : ∀ a b, le a b = true ∨ le b a = true)
    (trans : ∀ a b c, le a b = true → le b c = true → le a c = true)
    (a : α) {l : List α}
    (h : l.Pairwise (fun x y => le x y = true)) :
    (insertSorted le a l).Pairwise (fun x y => le x y = true) := by
  induction l with
  | nil => simp [insertSorted]
  | cons b bs ih =>
    rw [insertSorted]
    by_cases hab : le a b = true
    · rw [if_pos hab]
      refine List.Pairwise.cons ?_ h
      intro x hx
      rcases List.mem_cons.mp hx with hxb | hx
      · subst hxb
        exact hab
      · exact trans a b x hab (List.rel_of_pairwise_cons h hx)
    · rw [if_neg hab]
      refine List.Pairwise.cons ?_ (ih h.tail)
      intro x hx
      rcases mem_insertSorted.mp hx with hxa | hx
      · rw [hxa]
        rcases total a b with hb | hb
        · exact absurd hb hab
        · exact hb
      · exact List.rel_of_pairwise_cons h hx

theorem pairwise_sortByRel {α : Type} {le : α → α → Bool}
    (total : ∀ a b, le a b = true ∨ le b a = true)
    (trans : ∀ a b c, le a b = true → le b c = true → le a c = true)
    (l : List α) :
    (sortByRel le l).Pairwise (fun x y => le x y = true) := by
  induction l with
  | nil => simp [sortByRel]
  | cons a as ih => exact pairwise_insertSorted total trans a ih

/-- In a pairwise-ordered list, every element kept by `head`/`take n`
relates to every element it cut off. -/
theorem pairwise_take_drop {α : Type} {R : α → α → Prop} {l : List α}
    (h : l.Pairwise R) (n : ℕ) {a b : α}
    (ha : a ∈ l.take n) (hb : b ∈ l.drop n) : R a b := by
  have hsplit : l.take n ++ l.drop n = l := List.take_append_drop n l
  rw [← hsplit] at h
  exact (List.pairwise_append.mp h).2.2 a ha b hb

/-- The selection with every dimension unrestricted. -/
def emptySelection : Selection := ⟨[], [], [], []⟩

/-- Spec-side characterization of the filter predicate: conjunction over
dimensions, membership within a dimension, empty selection unrestricted. -/
def specMatches (s : Selection) (r : Record) : Bool :=
  (s.countries.isEmpty || s.countries.contains r.country)
    && ((s.aircrafts.isEmpty || s.aircrafts.contains r.aircraft)
    && ((s.operators.isEmpty || s.operators.contains r.opr)
    && (s.years.isEmpty || yearMatch s.years r)))

theorem bool_and_rot3 (a b c : Bool) : (c && (b && a)) = (a && (b && c)) := by
  cases a <;> cases b <;> cases c <;> rfl

theorem bool_and_rot4 (a b c d : Bool) :
    (d && (c && (b && a))) = (a && (b && (c && d))) := by
  cases a <;> cases b <;> cases c <;> cases d <;> rfl

theorem step_filter {l : List Record} {c : Bool} {p : Record → Bool} :
    (if c then l else l.filter p) = l.filter (fun r => c || p r) := by
  cases c with
  | true => simp
  | false => simp

/-- Closed form of the filter loop: it fails exactly when a `Year`
restriction is selected on a dataframe without a `Year` column, and
otherwise returns the rows satisfying the conjunction of the per-dimension
membership tests, in original order. -/
theorem applyFiltersRows_eq (hasDate : Bool) (rows : List Record) (s : Selection) :
    applyFiltersRows hasDate rows s =
      if s.years.isEmpty || hasDate then some (rows.filter (specMatches s))
      else none := by
  cases hy : s.years.isEmpty with
  | true =>
    simp only [applyFiltersRows, hy, step_filter, Bool.true_or, ite_true]
    simp only [List.filter_filter]
    congr 1
    apply List.filter_congr
    intro r _
    simp only [specMatches, hy, Bool.true_or, Bool.and_true]
    exact bool_and_rot3 _ _ _
  | false =>
    cases hd : hasDate with
    | true =>
      simp only [applyFiltersRows, hy, hd, step_filter, Bool.false_or, Bool.true_or,
        ite_true, ite_false, Bool.false_eq_true]
      simp only [List.filter_filter]
      congr 1
      apply List.filter_congr
      intro r _
      simp only [specMatches, hy, Bool.false_or]
      exact bool_and_rot4 _ _ _ _
    | false =>
      simp [applyFiltersRows, hy, hd, step_filter]

/-- Ascending comparison by the natural order, for pandas `groupby(sort=True)`
key ordering and `sort_values` ascending. -/
def ascLe {α : Type} [LinearOrder α] (a b : α) : Bool :=
  decide (a ≤ b)

/-- Code-point lexicographic comparison of character lists, the order
pandas uses on string values. Written from scratch so it evaluates inside
the kernel. -/
def charListLe : List Char → List Char → Bool
  | [], _ => true
  | _ :: _, [] => false
  | a :: as, b :: bs =>
    if a.toNat < b.toNat then true
    else if b.toNat < a.toNat then false
    else charListLe as bs

/-- Ascending comparison of strings by code points. -/
def strAsc (a b : String) : Bool :=
  charListLe a.data b.data

/-- Lexicographic ascending comparison on string pairs, the ordering pandas
uses on a two-column `groupby` key. -/
def strPairAsc (a b : String × String) : Bool :=
  if a.1 = b.1 then strAsc a.2 b.2 else strAsc a.1 b.1

/-- Descending comparison by the second component, for
`sort_values(by=metric, ascending=False)` and the count ordering of
`value_counts`. -/
def sndDesc {α β : Type} [LinearOrder β] (p q : α × β) : Bool :=
  decide (q.2 ≤ p.2)

/-- Ascending comparison by the first component, for the final
`sort_values("Year")` of Q4. -/
def fstAsc {α β : Type} [LinearOrder α] (p q : α × β) : Bool :=
  decide (p.1 ≤ q.1)

/-- Model of pandas `Series.value_counts()`: one `(value, count)` pair per
distinct non-NaN value, ordered by descending count. (The caller passes the
list of non-NaN cells.) -/
def pdValueCounts {α : Type} [DecidableEq α] (l : List α) : List (α × ℕ) :=
  sortByRel sndDesc ((pdUnique l).map fun k => (k, l.count k))

/-- Model of `groupby(key).size()`: group keys in ascending key order, each
with the number of rows carrying that key. -/
def groupCount {κ : Type} [DecidableEq κ] (keyLe : κ → κ → Bool)
    (keys : List κ) : List (κ × ℕ) :=
  (sortByRel keyLe (pdUnique keys)).map fun k => (k, keys.count k)

/-- Model of `groupby(key)[col].sum()`: group keys in ascending key order,
each with the sum of `val` over the rows carrying that key. -/
def groupSum {κ : Type} [DecidableEq κ] (keyLe : κ → κ → Bool)
    (key : Record → κ) (val : Record → ℚ) (rows : List Record) : List (κ × ℚ) :=
  (sortByRel keyLe (pdUnique (rows.map key))).map fun k =>
    (k, ((rows.filter fun r => decide (key r = k)).map val).sum)

/-- Model of `groupby(key)[[colA, colB]].sum()` with two summed columns. -/
def groupSum2 {κ : Type} [DecidableEq κ] (keyLe : κ → κ → Bool)
    (key : Record → κ) (valA valB : Record → ℚ) (rows : List Record) :
    List (κ × (ℚ × ℚ)) :=
  (sortByRel keyLe (pdUnique (rows.map key))).map fun k =>
    (k, (((rows.filter fun r => decide (key r = k)).map valA).sum,
         ((rows.filter fun r => decide (key r = k)).map valB).sum))

/-- Model of pandas `Series.mean()`: NaN (here `none`) on an empty series,
otherwise sum divided by length. -/
def pdMean (l : List ℚ) : Option ℚ :=
  if l.length = 0 then none else some (l.sum / (l.length : ℚ))

/-- `total_crashes = len(filtered_df)`. -/
def totalCrashes (view : List Record) : ℕ :=
  view.length

/-- `total_fatalities = filtered_df["Fatalities"].sum()`. -/
def totalFatalities (view : List Record) : ℚ :=
  (view.map (·.fatalities)).sum

/-- `total_aboard = filtered_df["Aboard"].sum()`: pandas `sum` skips NaN
cells, so a NaN `Aboard` contributes 0. -/
def totalAboard (view : List Record) : ℚ :=
  (view.map fun r => r.aboard.getD 0).sum

/-- `avg_fatalities = filtered_df["Fatalities"].mean()`. The `Fatalities`
column never holds NaN (it is a sum of NaN-filled columns), so the mean is
over every row of the view. -/
def avgFatalities (view : List Record) : Option ℚ :=
  pdMean (view.map (·.fatalities))

/-- `percent_fatalities` (line 68): the share of the full dataset's
fatalities present in the view, or 0 when the full dataset's fatalities
sum to 0. -/
def percentFatalities (view rows : List Record) : ℚ :=
  if 0 < totalFatalities rows then totalFatalities view / totalFatalities rows * 100
  else 0

/-- Q1 (lines 84-85): group the view by `(Country/Region, Aircraft)`, count
rows per group, order by descending count, keep the first 10. -/
def q1View (view : List Record) : List ((String × String) × ℕ) :=
  (sortByRel sndDesc
    (groupCount strPairAsc (view.map fun r => (r.country, r.aircraft)))).take 10

/-- Q2 (line 91): `value_counts` of `Aircraft`, first 6. -/
def q2View (view : List Record) : List (String × ℕ) :=
  (pdValueCounts (view.map (·.aircraft))).take 6

/-- Q3 (line 98): `value_counts` of `Operator`, first 5. -/
def q3View (view : List Record) : List (String × ℕ) :=
  (pdValueCounts (view.map (·.opr))).take 5

/-- Q4 before display (line 106): `value_counts` of the non-NaN `Year`
cells, first 10. -/
def q4Top (view : List Record) : List (Int × ℕ) :=
  (pdValueCounts (view.filterMap (·.year))).take 10

/-- Q4 as displayed (line 108): the top-10 re-sorted ascending by year. -/
def q4Display (view : List Record) : List (Int × ℕ) :=
  sortByRel fstAsc (q4Top view)

/-- Q5 (line 113): fatalities summed per `Location`, descending, first 5. -/
def q5View (view : List Record) : List (String × ℚ) :=
  (sortByRel sndDesc (groupSum strAsc (·.location) (·.fatalities) view)).take 5

/-- Q6 (line 119): `Aboard` and `Fatalities` summed per `Country/Region`,
ordered by descending `Aboard` sum, first 5. NaN `Aboard` cells contribute 0
to the group sum. -/
def q6View (view : List Record) : List (String × (ℚ × ℚ)) :=
  (sortByRel (fun p q => decide (q.2.1 ≤ p.2.1))
    (groupSum2 strAsc (·.country) (fun r => r.aboard.getD 0) (·.fatalities) view)).take 5

/-- Q10 (line 138): fatalities summed per non-NaN `Month`, descending, no
truncation. `groupby` drops rows whose key is NaN, so the group keys are the
months of rows whose `Month` cell is present. -/
def q10View (view : List Record) : List (String × ℚ) :=
  sortByRel sndDesc
    ((sortByRel strAsc (pdUnique (view.filterMap (·.month)))).map fun m =>
      (m, ((view.filter fun r => decide (r.month = some m)).map (·.fatalities)).sum))

/-- Everything the aggregation engine hands to the rendering layer for one
interaction: the KPI block and the ten research-question results. Q4 and
Q10 are guarded by column-presence checks in the source, hence `Option`. -/
structure Views where
  totalCrashes : ℕ
  totalFatalities : ℚ
  totalAboard : ℚ
  avgFatalities : Option ℚ
  percentFatalities : ℚ
  q1 : List ((String × String) × ℕ)
  q2 : List (String × ℕ)
  q3 : List (String × ℕ)
  q4 : Option (List (Int × ℕ))
  q5 : List (String × ℚ)
  q6 : List (String × (ℚ × ℚ))
  q7 : Option ℚ
  q8 : ℚ
  q9 : ℚ
  q10 : Option (List (String × ℚ))
deriving Repr, DecidableEq

/-- The whole per-interaction computation (lines 61-140) over the filtered
view, with the full dataset available for the global-percentage KPI. Q4 and
Q10 run only when the `Year`/`Month` columns exist; Q7/Q8/Q9 redisplay KPI
values. -/
def computeViews (d : Dataset) (view : List Record) : Views :=
  { totalCrashes := totalCrashes view
    totalFatalities := totalFatalities view
    totalAboard := totalAboard view
    avgFatalities := avgFatalities view
    percentFatalities := percentFatalities view d.rows
    q1 := q1View view
    q2 := q2View view
    q3 := q3View view
    q4 := if d.hasDate then some (q4Display view) else none
    q5 := q5View view
    q6 := q6View view
    q7 := avgFatalities view
    q8 := totalFatalities view
    q9 := totalAboard view
    q10 := if d.hasDate then some (q10View view) else none }

/-- The option sets offered by the four sidebar multiselects. -/
structure FilterOptions where
  countries : List String
  aircrafts : List String
  operators : List String
  years : List Int
deriving Repr, DecidableEq

/-- The `filters` dict (lines 44-49): `unique()` of each categorical column
over the full dataset, and `dropna().unique()` of `Year` when that column
exists, else an empty option list. -/
def buildFilterOptions (d : Dataset) : FilterOptions :=
  { countries := pdUnique (d.rows.map (·.country))
    aircrafts := pdUnique (d.rows.map (·.aircraft))
    operators := pdUnique (d.rows.map (·.opr))
    years := if d.hasDate then pdUnique (d.rows.filterMap (·.year)) else [] }

/-- Spec-side variant of `buildFilterOptions` in which every option set is
sorted ascending, following the spec's words "sorted set of distinct
values"; compared against the source-side `buildFilterOptions`. -/
def buildFilterOptionsSorted (d : Dataset) : FilterOptions :=
  { countries := sortByRel strAsc (pdUnique (d.rows.map (·.country)))
    aircrafts := sortByRel strAsc (pdUnique (d.rows.map (·.aircraft)))
    operators := sortByRel strAsc (pdUnique (d.rows.map (·.opr)))
    years := if d.hasDate then sortByRel ascLe (pdUnique (d.rows.filterMap (·.year)))
      else [] }

/-- One full interaction after load: filter, then compute every KPI and
view; the dataset the next interaction will see is returned alongside (the
source never reassigns or mutates `df` after `load_data`). -/
def runDashboard (d : Dataset) (s : Selection) : Option (Views × Dataset) :=
  (d.applyFilters s).map fun view => (computeViews d view, d)

/-- A successful filter run returns exactly the rows satisfying the
conjunction of the per-dimension membership tests. -/
theorem applyFiltersRows_some_eq {hd : Bool} {rows : List Record}
    {s : Selection} {view : List Record}
    (h : applyFiltersRows hd rows s = some view) :
    view = rows.filter (specMatches s) := by
  rw [applyFiltersRows_eq] at h
  by_cases hc : (s.years.isEmpty || hd) = true
  · rw [if_pos hc] at h
    exact (Option.some.inj h).symm
  · rw [if_neg hc] at h
    cases h

/-- A successful filter run on a dataset returns exactly the rows
satisfying the conjunction of the per-dimension membership tests. -/
theorem applyFilters_some_eq {d : Dataset} {s : Selection} {view : List Record}
    (h : d.applyFilters s = some view) :
    view = d.rows.filter (specMatches s) :=
  applyFiltersRows_some_eq h

/-- Sample rows for concrete witnesses: a US record and an FR record,
both with every source column present. -/
def rawUS : RawRecord :=
  ⟨some "US", some "OpA", some "B737", some "LocA", some 2, some 0, some 10,
    some ⟨1980, "January"⟩⟩

def rawFR : RawRecord :=
  ⟨some "FR", some "OpB", some "A320", some "LocB", some 0, some 0, some 8,
    some ⟨1981, "March"⟩⟩

/-- A raw row with every optional cell missing except `Aboard`. -/
def rawBlank : RawRecord :=
  ⟨none, none, none, none, none, none, some 5, none⟩

/-- The column layout with all three optional columns present. -/
def colsAll : Cols := ⟨true, true, true⟩

/-- A two-row sample dataset whose `Country/Region` column reads
`US` before `FR` (so `unique()` is not sorted). -/
def sampleDataset : Dataset := loadData colsAll [rawUS, rawFR]

/-- A selection restricting `Country/Region` to `{FR}`. -/
def selFR : Selection := ⟨["FR"], [], [], []⟩

/-- A selection restricting `Country/Region` to a value absent from the
sample dataset, producing an empty FilteredView. -/
def selMiss : Selection := ⟨["XX"], [], [], []⟩

/-- C3: a FilteredView is exactly the subsequence of dataset rows whose
value for each dimension with a non-empty selection lies in that selection
(AND across dimensions, OR within one; an empty selection is no
constraint); the original record order is preserved; and the all-empty
selection returns the full dataset. -/
theorem applyFilters_characterization (d : Dataset) (s : Selection)
    (view : List Record) (h : d.applyFilters s = some view) :
    view = d.rows.filter (specMatches s) ∧ List.Sublist view d.rows ∧
      d.applyFilters emptySelection = some d.rows := by
  have hv := applyFilters_some_eq h
  refine ⟨hv, ?_, ?_⟩
  · rw [hv]
    exact List.filter_sublist _
  · rw [Dataset.applyFilters, applyFiltersRows_eq]
    simp [emptySelection, specMatches]

/-- Witness for C3 at the sample dataset and the `{FR}` country selection. -/
theorem applyFilters_characterization_witness :
    [loadRecord colsAll rawFR] = sampleDataset.rows.filter (specMatches selFR) ∧
      List.Sublist [loadRecord colsAll rawFR] sampleDataset.rows ∧
      sampleDataset.applyFilters emptySelection = some sampleDataset.rows :=
  applyFilters_characterization sampleDataset selFR [loadRecord colsAll rawFR]
    (by rfl)

/-- C8: `applyFilters` is idempotent: re-applying a selection to the
dataframe it produced (which carries the same columns) changes nothing. -/
theorem applyFilters_idempotent (d : Dataset) (s : Selection)
    (view : List Record) (h : d.applyFilters s = some view) :
    Dataset.applyFilters ⟨d.hasDate, view⟩ s = some view := by
  have hv := applyFilters_some_eq h
  rw [Dataset.applyFilters] at h ⊢
  rw [applyFiltersRows_eq] at h ⊢
  by_cases hc : (s.years.isEmpty || d.hasDate) = true
  · rw [if_pos hc] at h
    rw [hv]
    simp only [if_pos hc, List.filter_filter]
    congr 1
    apply List.filter_congr
    intro r _
    exact Bool.and_self _
  · rw [if_neg hc] at h
    cases h

/-- Witness for C8 at the sample dataset and the `{FR}` country selection. -/
theorem applyFilters_idempotent_witness :
    Dataset.applyFilters ⟨sampleDataset.hasDate, [loadRecord colsAll rawFR]⟩ selFR
      = some [loadRecord colsAll rawFR] :=
  applyFilters_idempotent sampleDataset selFR [loadRecord colsAll rawFR] (by rfl)

/-- C2: after normalization, every record of every FilteredView satisfies
`Fatalities = Air.fillna(0) + Ground.fillna(0)`; in particular, when the
source supplied neither fatality sub-column the equation reads `0 = 0 + 0`. -/
theorem fatalities_sum_invariant (c : Cols) (raws : List RawRecord)
    (s : Selection) (view : List Record) (r : Record)
    (h : (loadData c raws).applyFilters s = some view) (hr : r ∈ view) :
    r.fatalities = r.air.getD 0 + r.ground.getD 0 ∧
      (c.hasAir = false → c.hasGround = false → r.fatalities = 0) := by
  have hv := applyFilters_some_eq h
  rw [hv] at hr
  have hrows : r ∈ (loadData c raws).rows := List.mem_of_mem_filter hr
  rw [loadData] at hrows
  obtain ⟨raw, _, hload⟩ := List.mem_map.mp hrows
  constructor
  · rw [← hload]
    rfl
  · intro hA hG
    rw [← hload]
    simp [loadRecord, hA, hG]

/-- Witness for C2 at the sample dataset, empty selection, and its first
record. -/
theorem fatalities_sum_invariant_witness :
    (loadRecord colsAll rawUS).fatalities
        = (loadRecord colsAll rawUS).air.getD 0
          + (loadRecord colsAll rawUS).ground.getD 0 ∧
      (colsAll.hasAir = false → colsAll.hasGround = false →
        (loadRecord colsAll rawUS).fatalities = 0) :=
  fatalities_sum_invariant colsAll [rawUS, rawFR] emptySelection
    sampleDataset.rows (loadRecord colsAll rawUS) (by rfl)
    (by rw [sampleDataset, loadData]; exact List.mem_cons_self _ _)

/-- C6: normalization replaces a missing value of any of the four
categorical fields with exactly the literal string `"Unspecified"` (which
is not the empty string), and leaves present values alone, so the fields
are never null afterwards. -/
theorem categorical_fillna (c : Cols) (raw : RawRecord) :
    (loadRecord c raw).country = raw.country.getD "Unspecified" ∧
    (loadRecord c raw).opr = raw.opr.getD "Unspecified" ∧
    (loadRecord c raw).aircraft = raw.aircraft.getD "Unspecified" ∧
    (loadRecord c raw).location = raw.location.getD "Unspecified" ∧
    (raw.country = none → (loadRecord c raw).country = "Unspecified") ∧
    (raw.opr = none → (loadRecord c raw).opr = "Unspecified") ∧
    (raw.aircraft = none → (loadRecord c raw).aircraft = "Unspecified") ∧
    (raw.location = none → (loadRecord c raw).location = "Unspecified") ∧
    "Unspecified" ≠ "" := by
  refine ⟨rfl, rfl, rfl, rfl, ?_, ?_, ?_, ?_, by decide⟩ <;>
    intro h <;> simp [loadRecord, h]

/-- Witness for C6 at a raw row with every categorical cell missing. -/
theorem categorical_fillna_witness :
    (loadRecord colsAll rawBlank).country = rawBlank.country.getD "Unspecified" ∧
    (loadRecord colsAll rawBlank).opr = rawBlank.opr.getD "Unspecified" ∧
    (loadRecord colsAll rawBlank).aircraft
        = rawBlank.aircraft.getD "Unspecified" ∧
    (loadRecord colsAll rawBlank).location
        = rawBlank.location.getD "Unspecified" ∧
    (rawBlank.country = none → (loadRecord colsAll rawBlank).country = "Unspecified") ∧
    (rawBlank.opr = none → (loadRecord colsAll rawBlank).opr = "Unspecified") ∧
    (rawBlank.aircraft = none →
      (loadRecord colsAll rawBlank).aircraft = "Unspecified") ∧
    (rawBlank.location = none →
      (loadRecord colsAll rawBlank).location = "Unspecified") ∧
    "Unspecified" ≠ "" :=
  categorical_fillna colsAll rawBlank

/-- C1 (amended): `avg_fatalities` is `total_fatalities / total_crashes`
whenever the FilteredView is non-empty, and on an empty FilteredView it is
pandas NaN (`none`) — not 0 — with no division error raised. -/
theorem avgFatalities_characterization (view : List Record) :
    (totalCrashes view ≠ 0 →
      avgFatalities view = some (totalFatalities view / (totalCrashes view : ℚ))) ∧
    (totalCrashes view = 0 → avgFatalities view = none) := by
  constructor
  · intro h
    rw [avgFatalities, pdMean, totalFatalities, totalCrashes]
    rw [if_neg (by simpa [totalCrashes] using h)]
    simp
  · intro h
    rw [avgFatalities, pdMean]
    rw [if_pos (by simpa [totalCrashes] using h)]

/-- Witness for C1 (amended) at the one-row US view. -/
theorem avgFatalities_characterization_witness :
    (totalCrashes [loadRecord colsAll rawUS] ≠ 0 →
      avgFatalities [loadRecord colsAll rawUS]
        = some (totalFatalities [loadRecord colsAll rawUS]
            / (totalCrashes [loadRecord colsAll rawUS] : ℚ))) ∧
    (totalCrashes [loadRecord colsAll rawUS] = 0 →
      avgFatalities [loadRecord colsAll rawUS] = none) :=
  avgFatalities_characterization [loadRecord colsAll rawUS]

/-- Counterexample to C1 as stated: a selection matching no record yields
an empty FilteredView (no error), but `avg_fatalities` on it is NaN
(`none`), not 0. -/
theorem avgFatalities_empty_not_zero :
    sampleDataset.applyFilters selMiss = some [] ∧
      avgFatalities [] ≠ some 0 := by
  constructor
  · rfl
  · simp [avgFatalities, pdMean]

/-- Counterexample to C5 as stated: on the sample dataset, whose
`Country/Region` column reads `US` before `FR`, the source's option sets
(`unique()`, first-appearance order) differ from the spec's sorted option
sets. -/
theorem buildFilterOptions_not_sorted :
    buildFilterOptions sampleDataset ≠ buildFilterOptionsSorted sampleDataset := by
  intro h
  have h1 : (buildFilterOptions sampleDataset).countries = ["US", "FR"] := by rfl
  have h2 : (buildFilterOptionsSorted sampleDataset).countries = ["FR", "US"] := by
    rfl
  rw [h, h2] at h1
  have hhd : "FR" = "US" := by injection h1
  exact absurd hhd (by decide)

/-- C5 (amended): each option set holds exactly the distinct values of its
column over the full dataset, without duplicates, in order of first
appearance rather than sorted; `year` options come only from records whose
`year` is present, and exist only when the dataset has a `Year` column. -/
theorem buildFilterOptions_characterization (d : Dataset) :
    ((buildFilterOptions d).countries.Nodup ∧
      (∀ x, x ∈ (buildFilterOptions d).countries ↔ x ∈ d.rows.map (·.country)) ∧
      (buildFilterOptions d).countries.Pairwise (fun x y =>
        firstIdx x (d.rows.map (·.country)) < firstIdx y (d.rows.map (·.country)))) ∧
    ((buildFilterOptions d).aircrafts.Nodup ∧
      (∀ x, x ∈ (buildFilterOptions d).aircrafts ↔ x ∈ d.rows.map (·.aircraft)) ∧
      (buildFilterOptions d).aircrafts.Pairwise (fun x y =>
        firstIdx x (d.rows.map (·.aircraft)) < firstIdx y (d.rows.map (·.aircraft)))) ∧
    ((buildFilterOptions d).operators.Nodup ∧
      (∀ x, x ∈ (buildFilterOptions d).operators ↔ x ∈ d.rows.map (·.opr)) ∧
      (buildFilterOptions d).operators.Pairwise (fun x y =>
        firstIdx x (d.rows.map (·.opr)) < firstIdx y (d.rows.map (·.opr)))) ∧
    ((buildFilterOptions d).years.Nodup ∧
      (∀ y, y ∈ (buildFilterOptions d).years ↔
        (d.hasDate = true ∧ some y ∈ d.rows.map (·.year))) ∧
      (buildFilterOptions d).years.Pairwise (fun x y =>
        firstIdx x (d.rows.filterMap (·.year))
          < firstIdx y (d.rows.filterMap (·.year)))) := by
  refine ⟨⟨nodup_pdUnique _, ?_, pairwise_firstIdx_pdUnique _⟩,
    ⟨nodup_pdUnique _, ?_, pairwise_firstIdx_pdUnique _⟩,
    ⟨nodup_pdUnique _, ?_, pairwise_firstIdx_pdUnique _⟩, ⟨?_, ?_, ?_⟩⟩
  · intro x
    simp [buildFilterOptions, mem_pdUnique]
  · intro x
    simp [buildFilterOptions, mem_pdUnique]
  · intro x
    simp [buildFilterOptions, mem_pdUnique]
  · by_cases hd : d.hasDate = true
    · simp only [buildFilterOptions, hd, ite_true]
      exact nodup_pdUnique _
    · simp only [buildFilterOptions, if_neg hd]
      exact List.nodup_nil
  · intro y
    by_cases hd : d.hasDate = true
    · simp [buildFilterOptions, hd, mem_pdUnique, List.mem_filterMap, List.mem_map,
        eq_comm]
    · simp [buildFilterOptions, hd]
  · by_cases hd : d.hasDate = true
    · simp only [buildFilterOptions, hd, ite_true]
      exact pairwise_firstIdx_pdUnique _
    · simp [buildFilterOptions, hd]

theorem sndDesc_total {α : Type} (p q : α × ℕ) :
    sndDesc p q = true ∨ sndDesc q p = true := by
  rcases le_total q.2 p.2 with h | h
  · exact Or.inl (decide_eq_true h)
  · exact Or.inr (decide_eq_true h)

theorem sndDesc_trans {α : Type} (p q r : α × ℕ) :
    sndDesc p q = true → sndDesc q r = true → sndDesc p r = true := by
  intro h1 h2
  exact decide_eq_true (le_trans (of_decide_eq_true h2) (of_decide_eq_true h1))

theorem fstAsc_total {β : Type} (p q : Int × β) :
    fstAsc p q = true ∨ fstAsc q p = true := by
  rcases le_total p.1 q.1 with h | h
  · exact Or.inl (decide_eq_true h)
  · exact Or.inr (decide_eq_true h)

theorem fstAsc_trans {β : Type} (p q r : Int × β) :
    fstAsc p q = true → fstAsc q r = true → fstAsc p r = true := by
  intro h1 h2
  exact decide_eq_true (le_trans (of_decide_eq_true h1) (of_decide_eq_true h2))

theorem pdValueCounts_mem {α : Type} [DecidableEq α] {l : List α} {p : α × ℕ}
    (hp : p ∈ pdValueCounts l) : p.2 = l.count p.1 ∧ p.1 ∈ l := by
  rw [pdValueCounts, mem_sortByRel] at hp
  obtain ⟨k, hk, hpk⟩ := List.mem_map.mp hp
  rw [← hpk]
  exact ⟨rfl, mem_pdUnique.mp hk⟩

theorem mem_pdValueCounts {α : Type} [DecidableEq α] {l : List α} {y : α}
    (hy : y ∈ l) : (y, l.count y) ∈ pdValueCounts l := by
  rw [pdValueCounts, mem_sortByRel]
  exact List.mem_map.mpr ⟨y, mem_pdUnique.mpr hy, rfl⟩

theorem pdValueCounts_sorted {α : Type} [DecidableEq α] (l : List α) :
    (pdValueCounts l).Pairwise (fun p q => q.2 ≤ p.2) := by
  have h := @pairwise_sortByRel (α × ℕ) sndDesc
    sndDesc_total sndDesc_trans ((pdUnique l).map fun k => (k, l.count k))
  exact h.imp fun hpq => of_decide_eq_true hpq

/-- C7: the displayed Q4 table counts crashes per distinct non-NaN year
(every displayed pair carries the exact count of its year, every year of
the view is counted), keeps at most 10 entries, each excluded year has a
count no larger than any displayed one, and the display is the top-10
re-sorted ascending by year. -/
theorem q4_characterization (view : List Record) :
    (∀ p ∈ q4Display view,
        p.2 = (view.filterMap (·.year)).count p.1 ∧ some p.1 ∈ view.map (·.year)) ∧
    (∀ y ∈ view.filterMap (·.year),
        (y, (view.filterMap (·.year)).count y)
          ∈ pdValueCounts (view.filterMap (·.year))) ∧
    (q4Display view).length ≤ 10 ∧
    (q4Display view).Pairwise (fun p q => p.1 ≤ q.1) ∧
    (∀ p ∈ pdValueCounts (view.filterMap (·.year)), p ∉ q4Top view →
        ∀ q ∈ q4Display view, p.2 ≤ q.2) ∧
    List.Perm (q4Display view) (q4Top view) := by
  refine ⟨?_, ?_, ?_, ?_, ?_, perm_sortByRel _ _⟩
  · intro p hp
    rw [q4Display, mem_sortByRel, q4Top] at hp
    have hvc := List.mem_of_mem_take hp
    obtain ⟨hcount, hmem⟩ := pdValueCounts_mem hvc
    refine ⟨hcount, ?_⟩
    obtain ⟨r, hr, hry⟩ := List.mem_filterMap.mp hmem
    exact List.mem_map.mpr ⟨r, hr, hry⟩
  · intro y hy
    exact mem_pdValueCounts hy
  · rw [q4Display, length_sortByRel, q4Top]
    exact List.length_take_le _ _
  · have h := @pairwise_sortByRel (Int × ℕ) fstAsc
      fstAsc_total fstAsc_trans (q4Top view)
    exact h.imp fun hpq => of_decide_eq_true hpq
  · intro p hp hnot q hq
    rw [q4Display, mem_sortByRel] at hq
    have hsorted := pdValueCounts_sorted (view.filterMap (·.year))
    rw [← List.take_append_drop 10 (pdValueCounts (view.filterMap (·.year)))] at hp
    rcases List.mem_append.mp hp with htake | hdrop
    · exact absurd htake (by rw [q4Top] at hnot; exact hnot)
    · rw [q4Top] at hq
      exact pairwise_take_drop hsorted 10 hq hdrop

/-- Witness for C7 at the two-row sample view. -/
theorem q4_characterization_witness :
    (∀ p ∈ q4Display sampleDataset.rows,
        p.2 = (sampleDataset.rows.filterMap (·.year)).count p.1
          ∧ some p.1 ∈ sampleDataset.rows.map (·.year)) ∧
    (∀ y ∈ sampleDataset.rows.filterMap (·.year),
        (y, (sampleDataset.rows.filterMap (·.year)).count y)
          ∈ pdValueCounts (sampleDataset.rows.filterMap (·.year))) ∧
    (q4Display sampleDataset.rows).length ≤ 10 ∧
    (q4Display sampleDataset.rows).Pairwise (fun p q => p.1 ≤ q.1) ∧
    (∀ p ∈ pdValueCounts (sampleDataset.rows.filterMap (·.year)),
        p ∉ q4Top sampleDataset.rows →
        ∀ q ∈ q4Display sampleDataset.rows, p.2 ≤ q.2) ∧
    List.Perm (q4Display sampleDataset.rows) (q4Top sampleDataset.rows) :=
  q4_characterization sampleDataset.rows

/-- C9: one full interaction never changes the dataset: the dataframe
handed to the next interaction is the loaded one, and the FilteredView is a
subsequence of the original rows, each of its records a record of the
original dataset, unmodified. -/
theorem dataset_immutable (d : Dataset) (s : Selection) (view : List Record)
    (h : d.applyFilters s = some view) :
    runDashboard d s = some (computeViews d view, d) ∧
      List.Sublist view d.rows ∧ ∀ r ∈ view, r ∈ d.rows := by
  have hv := applyFilters_some_eq h
  refine ⟨?_, ?_, ?_⟩
  · rw [runDashboard, h]
    rfl
  · rw [hv]
    exact List.filter_sublist _
  · intro r hr
    rw [hv] at hr
    exact List.mem_of_mem_filter hr

/-- Witness for C9 at the sample dataset and the `{FR}` country selection. -/
theorem dataset_immutable_witness :
    runDashboard sampleDataset selFR
        = some (computeViews sampleDataset [loadRecord colsAll rawFR], sampleDataset) ∧
      List.Sublist [loadRecord colsAll rawFR] sampleDataset.rows ∧
      ∀ r ∈ [loadRecord colsAll rawFR], r ∈ sampleDataset.rows :=
  dataset_immutable sampleDataset selFR [loadRecord colsAll rawFR] (by rfl)

/-- The column layout of a source without a `Date` column. -/
def colsNoDate : Cols := ⟨true, true, false⟩

/-- C10: when the source has no `Date` column, the `Year` filter options
are empty, filtering still succeeds (the `Year` selection is necessarily
empty since its options are), Q4 and Q10 are omitted entirely, and the
KPIs and every other view are still computed over the FilteredView. -/
theorem no_date_column (c : Cols) (raws : List RawRecord) (s : Selection)
    (hdate : c.hasDate = false) (hys : s.years = []) :
    (buildFilterOptions (loadData c raws)).years = [] ∧
    ∃ view, (loadData c raws).applyFilters s = some view ∧
      (computeViews (loadData c raws) view).q4 = none ∧
      (computeViews (loadData c raws) view).q10 = none ∧
      (computeViews (loadData c raws) view).totalCrashes = totalCrashes view ∧
      (computeViews (loadData c raws) view).totalFatalities = totalFatalities view ∧
      (computeViews (loadData c raws) view).totalAboard = totalAboard view ∧
      (computeViews (loadData c raws) view).avgFatalities = avgFatalities view ∧
      (computeViews (loadData c raws) view).q1 = q1View view ∧
      (computeViews (loadData c raws) view).q2 = q2View view ∧
      (computeViews (loadData c raws) view).q3 = q3View view ∧
      (computeViews (loadData c raws) view).q5 = q5View view ∧
      (computeViews (loadData c raws) view).q6 = q6View view := by
  have hd : (loadData c raws).hasDate = false := hdate
  constructor
  · simp [buildFilterOptions, hd]
  · refine ⟨(loadData c raws).rows.filter (specMatches s), ?_, ?_, ?_,
      rfl, rfl, rfl, rfl, rfl, rfl, rfl, rfl, rfl⟩
    · rw [Dataset.applyFilters, applyFiltersRows_eq, hys]
      simp
    · simp [computeViews, hd]
    · simp [computeViews, hd]

/-- Witness for C10 at a one-row dataset without a `Date` column. -/
theorem no_date_column_witness :
    (buildFilterOptions (loadData colsNoDate [rawUS])).years = [] ∧
    ∃ view, (loadData colsNoDate [rawUS]).applyFilters emptySelection = some view ∧
      (computeViews (loadData colsNoDate [rawUS]) view).q4 = none ∧
      (computeViews (loadData colsNoDate [rawUS]) view).q10 = none ∧
      (computeViews (loadData colsNoDate [rawUS]) view).totalCrashes
          = totalCrashes view ∧
      (computeViews (loadData colsNoDate [rawUS]) view).totalFatalities
          = totalFatalities view ∧
      (computeViews (loadData colsNoDate [rawUS]) view).totalAboard
          = totalAboard view ∧
      (computeViews (loadData colsNoDate [rawUS]) view).avgFatalities
          = avgFatalities view ∧
      (computeViews (loadData colsNoDate [rawUS]) view).q1 = q1View view ∧
      (computeViews (loadData colsNoDate [rawUS]) view).q2 = q2View view ∧
      (computeViews (loadData colsNoDate [rawUS]) view).q3 = q3View view ∧
      (computeViews (loadData colsNoDate [rawUS]) view).q5 = q5View view ∧
      (computeViews (loadData colsNoDate [rawUS]) view).q6 = q6View view :=
  no_date_column colsNoDate [rawUS] emptySelection rfl rfl

end Aircrash
